import Mathlib

set_option linter.unusedVariables false

/-!
Shallow embedding of the WordTreasure similarity-service core
(src/models/similarity.py, src/models/hint.py, src/config.py).

Python strings are modelled as `List Char`, Python floats as `ℚ`.
The two external model capabilities (sentence embedding, NLI
classification) are passed in as oracle functions, matching the spec's
treatment of them as external collaborators with a fixed contract.
-/

/-- Three-way label returned by the NLI classification capability. -/
inductive Label
  | entailment
  | neutral
  | contradiction
deriving DecidableEq, Repr

/-- Python `str.lower` for the character blocks this development reasons about
(ASCII letters and Latin-1 letters). Other characters are unchanged. -/
def pyToLower (c : Char) : Char :=
  if 'A'.toNat ≤ c.toNat ∧ c.toNat ≤ 'Z'.toNat then Char.ofNat (c.toNat + 32)
  else if 0xC0 ≤ c.toNat ∧ c.toNat ≤ 0xDE ∧ c.toNat ≠ 0xD7 then Char.ofNat (c.toNat + 32)
  else c

/-- The regex class `\s` (whitespace), ASCII part, which covers the
whitespace characters this development reasons about. -/
def pyIsSpace (c : Char) : Bool :=
  decide (c = ' ' ∨ c = '\t' ∨ c = '\n' ∨ c = '\r' ∨ c.toNat = 0x0b ∨ c.toNat = 0x0c)

/-- The Hangul syllabic block 가-힣 (U+AC00 .. U+D7A3). -/
def isHangulSyllable (c : Char) : Bool :=
  decide (0xAC00 ≤ c.toNat ∧ c.toNat ≤ 0xD7A3)

/-- Python regex `\w` on `str` patterns: a Unicode word character
(underscore, digits, letters of any script).  Modelled here on the
character blocks this development reasons about: ASCII word characters,
Latin-1 letters (e.g. é), Hangul jamo, Hangul compatibility jamo and the
Hangul syllabic block. -/
def pyIsWord (c : Char) : Bool :=
  decide (c = '_'
    ∨ ('0'.toNat ≤ c.toNat ∧ c.toNat ≤ '9'.toNat)
    ∨ ('a'.toNat ≤ c.toNat ∧ c.toNat ≤ 'z'.toNat)
    ∨ ('A'.toNat ≤ c.toNat ∧ c.toNat ≤ 'Z'.toNat)
    ∨ (0xC0 ≤ c.toNat ∧ c.toNat ≤ 0xFF ∧ c.toNat ≠ 0xD7 ∧ c.toNat ≠ 0xF7)
    ∨ (0x1100 ≤ c.toNat ∧ c.toNat ≤ 0x11FF)
    ∨ (0x3130 ≤ c.toNat ∧ c.toNat ≤ 0x318F)
    ∨ (0xAC00 ≤ c.toNat ∧ c.toNat ≤ 0xD7A3))

/-- Python `str.strip()`: drop leading and trailing whitespace. -/
def pyStrip (s : List Char) : List Char :=
  ((s.dropWhile pyIsSpace).reverse.dropWhile pyIsSpace).reverse

/-- Embedding of `SimilarityCalculator.normalize_text` (src/models/similarity.py):
lowercase, `re.sub(r'\s+', '', ·)` (delete all whitespace),
`re.sub(r'[^\w\s가-힣]', '', ·)` (keep only word characters, whitespace
and Hangul syllables), then `.strip()`. -/
def normalize_text (text : List Char) : List Char :=
  let lowered := text.map pyToLower
  let nospace := lowered.filter (fun c => !pyIsSpace c)
  let kept := nospace.filter (fun c => pyIsWord c || pyIsSpace c || isHangulSyllable c)
  pyStrip kept

/-- Membership in the ASCII word characters `[A-Za-z0-9_]`. -/
def isAsciiWord (c : Char) : Bool :=
  decide (c = '_'
    ∨ ('0'.toNat ≤ c.toNat ∧ c.toNat ≤ '9'.toNat)
    ∨ ('a'.toNat ≤ c.toNat ∧ c.toNat ≤ 'z'.toNat)
    ∨ ('A'.toNat ≤ c.toNat ∧ c.toNat ≤ 'Z'.toNat))

/-- Normalization exactly as claim C4 words it: lowercase; delete all
whitespace; delete every character that is neither an ASCII word
character nor a character of the Hangul syllabic block. -/
def normalizeSpecC4 (text : List Char) : List Char :=
  ((text.map pyToLower).filter (fun c => !pyIsSpace c)).filter
    (fun c => isAsciiWord c || isHangulSyllable c)

/-- Reference recursive Levenshtein distance (unit costs), used to give
meaning to the row-based dynamic program below. -/
def levRec : List Char → List Char → ℕ
  | [], ys => ys.length
  | x :: xs, [] => (x :: xs).length
  | x :: xs, y :: ys =>
      min (min (levRec (x :: xs) ys + 1) (levRec xs (y :: ys) + 1))
        (levRec xs ys + if x = y then 0 else 1)

/-- Inner loop of `SimilarityCalculator._levenshtein_distance`
(src/models/similarity.py): given the character `c1` of the outer loop,
the remaining characters of `s2`, the previous row from the current
column onwards, and the entry of the current row just computed, produce
the remaining entries of the current row.  `insertions = previous_row[j+1] + 1`,
`deletions = current_row[j] + 1`, `substitutions = previous_row[j] + (c1 != c2)`. -/
def levRowAux (c1 : Char) : List Char → List ℕ → ℕ → List ℕ
  | c2 :: s2, p0 :: p1 :: prest, cur =>
      let e := min (min (p1 + 1) (cur + 1)) (p0 + if c1 = c2 then 0 else 1)
      e :: levRowAux c1 s2 (p1 :: prest) e
  | _, _, _ => []

/-- Outer loop of `_levenshtein_distance`: fold the rows over the
characters of `s1`; `i` is the 0-based index of the current character,
the new row starts with `i + 1`. -/
def levLoop (s2 : List Char) : List Char → List ℕ → ℕ → List ℕ
  | [], prev, _ => prev
  | c1 :: s1, prev, i => levLoop s2 s1 ((i + 1) :: levRowAux c1 s2 prev (i + 1)) (i + 1)

/-- The dynamic program of `_levenshtein_distance` after the length swap:
if `s2` is empty return `len(s1)`, otherwise run the row DP starting
from `previous_row = range(len(s2) + 1)` and return the last entry. -/
def levDP (s1 s2 : List Char) : ℕ :=
  if s2.length = 0 then s1.length
  else (levLoop s2 s1 (List.range (s2.length + 1)) 0).getLastD 0

/-- `SimilarityCalculator._levenshtein_distance`: swap so that the first
argument is the longer one, then run the row DP. -/
def levenshtein_distance (s1 s2 : List Char) : ℕ :=
  if s1.length < s2.length then levDP s2 s1 else levDP s1 s2

/-- Python `max(a, b)`: return `b` only when it is strictly greater. -/
def pyMax (a b : ℚ) : ℚ := if a < b then b else a

/-- Python `min(a, b)`: return `b` only when it is strictly smaller. -/
def pyMin (a b : ℚ) : ℚ := if b < a then b else a

/-- Python `max(a, b)` on integers. -/
def pyMaxN (a b : ℕ) : ℕ := if a < b then b else a

/-- Embedding of `jamo.h2j` on a single character: decompose a Hangul syllable into
its lead/vowel/(optional) tail jamo (U+1100 block); every other
character is passed through unchanged. -/
def charToJamo (c : Char) : List Char :=
  if isHangulSyllable c then
    let s := c.toNat - 0xAC00
    let lead := s / 588
    let vowel := (s % 588) / 28
    let tail := s % 28
    if tail = 0 then [Char.ofNat (0x1100 + lead), Char.ofNat (0x1161 + vowel)]
    else [Char.ofNat (0x1100 + lead), Char.ofNat (0x1161 + vowel), Char.ofNat (0x11A7 + tail)]
  else [c]

/-- Embedding of `jamo.h2j`: decompose each Hangul syllable of the string. -/
def h2j (s : List Char) : List Char := (s.map charToJamo).flatten

/-- Embedding of `SimilarityCalculator.calculate_formative_similarity`
(src/models/similarity.py): jamo-decompose both texts, compute the
Levenshtein distance, normalize by the maximum length (1.0 when both are
empty), floor at 0. -/
def calculate_formative_similarity (input_text answer : List Char) : ℚ :=
  let input_jamo := h2j input_text
  let answer_jamo := h2j answer
  let distance := levenshtein_distance input_jamo answer_jamo
  let max_len := pyMaxN input_jamo.length answer_jamo.length
  if max_len = 0 then 1
  else pyMax 0 (1 - (distance : ℚ) / (max_len : ℚ))

/-- Fuel loop for substring replacement: replace every non-overlapping
occurrence of `pat` (scanning left to right) by `rep`.  The fuel, set to
the length of the text by `replaceAll`, only bounds the recursion: each
step consumes at least one character of the text. -/
def replaceGo (pat rep : List Char) : ℕ → List Char → List Char
  | _, [] => []
  | 0, s => s
  | fuel + 1, c :: rest =>
      if pat ≠ [] ∧ (c :: rest).take pat.length = pat then
        rep ++ replaceGo pat rep fuel ((c :: rest).drop pat.length)
      else c :: replaceGo pat rep fuel rest

/-- Python `str.replace(pat, rep)` for a nonempty pattern. -/
def replaceAll (pat rep s : List Char) : List Char := replaceGo pat rep s.length s

/-- Rendering `template.format(input=…, answer=…)`: substitute the two named
placeholders of a hypothesis template. -/
def renderTemplate (tpl input answer : List Char) : List Char :=
  replaceAll "{answer}".toList answer (replaceAll "{input}".toList input tpl)

/-- Embedding of `SimilarityCalculator.calculate_relational_similarity`
(src/models/similarity.py): per affirmative template, entailment
confidence as-is, neutral confidence halved, contradiction 0; relation
score is the mean (0 when the template list is empty).  Per
contradiction template only entailment labels contribute, and the
contradiction score is their maximum (0 when none). `nli` is the
external NLI capability. -/
def calculate_relational_similarity (nli : List Char → Label × ℚ)
    (input_text answer : List Char)
    (templates contradiction_templates : List (List Char)) : ℚ × ℚ :=
  let entailment_scores : List ℚ := templates.map (fun t =>
    let r := nli (renderTemplate t input_text answer)
    match r.1 with
    | Label.entailment => r.2
    | Label.neutral => r.2 * 0.5
    | Label.contradiction => 0)
  let relation_score :=
    if entailment_scores = [] then 0 else entailment_scores.sum / entailment_scores.length
  let contradiction_scores := contradiction_templates.filterMap (fun t =>
    let r := nli (renderTemplate t input_text answer)
    if r.1 = Label.entailment then some r.2 else none)
  let contradiction_score :=
    match contradiction_scores with
    | [] => 0
    | x :: xs => xs.foldl pyMax x
  (relation_score, contradiction_score)

/-- Per-entry score of `analyze_relationship_type`: entailment
confidence when the label is entailment, otherwise 0 (the
exception-catch in the source likewise yields 0). -/
def entryScore (nli : List Char → Label × ℚ) (input_text answer : List Char)
    (e : List Char × List Char) : List Char × ℚ :=
  let r := nli (renderTemplate e.2 input_text answer)
  (e.1, if r.1 = Label.entailment then r.2 else 0)

/-- Python `max(items, key=lambda x: x[1])`: left fold that keeps the
current element unless a later one is strictly greater. -/
def pyMaxBySnd {α : Type} (first : α × ℚ) : List (α × ℚ) → α × ℚ
  | [] => first
  | x :: rest => pyMaxBySnd (if first.2 < x.2 then x else first) rest

/-- Embedding of `SimilarityCalculator.analyze_relationship_type`
(src/models/similarity.py): score every taxonomy entry (Python dicts
iterate in declaration order), select the maximum with first-wins
tie-breaking, and return ("일반", 0.0) when the taxonomy is empty. -/
def analyze_relationship_type (nli : List Char → Label × ℚ)
    (input_text answer : List Char)
    (relationship_templates : List (List Char × List Char)) : List Char × ℚ :=
  match relationship_templates.map (entryScore nli input_text answer) with
  | [] => ("일반".toList, 0)
  | s :: rest => pyMaxBySnd s rest

/-- The three fusion weights (`config.WEIGHTS` shape). -/
structure Weights where
  semantic : ℚ
  relational : ℚ
  formative : ℚ
deriving Repr, DecidableEq

/-- Values of `config.WEIGHTS`. -/
def defaultWeights : Weights := { semantic := 0.50, relational := 0.35, formative := 0.15 }

/-- The four-component score breakdown. -/
structure Breakdown where
  semantic : ℚ
  relational : ℚ
  formative : ℚ
  contradiction : ℚ
deriving Repr, DecidableEq

/-- Return shape of `calculate_combined_similarity`. -/
structure CombinedResult where
  similarity_score : ℚ
  breakdown : Breakdown
deriving Repr, DecidableEq

/-- Python `round` to an integer: round half to even. -/
def pyRoundInt (q : ℚ) : ℤ :=
  if q - (⌊q⌋ : ℚ) < 1/2 then ⌊q⌋
  else if (1 : ℚ)/2 < q - (⌊q⌋ : ℚ) then ⌊q⌋ + 1
  else if ⌊q⌋ % 2 = 0 then ⌊q⌋ else ⌊q⌋ + 1

/-- Python `round(x, n)`. -/
def pyRound (q : ℚ) (n : ℕ) : ℚ := (pyRoundInt (q * 10 ^ n) : ℚ) / 10 ^ n

/-- Score fusion, the tail of `calculate_combined_similarity`
(src/models/similarity.py lines 272-296): weighted sum of the three
signals, contradiction penalty of 0.15, clamp to [0, 1], percentage
rounded to 2 decimals; breakdown components individually rounded to 4
decimals, with the contradiction figure reported unpenalized. -/
def fuse (weights : Weights)
    (semantic_score relation_score formative_score contradiction_score : ℚ) : CombinedResult :=
  let weighted := semantic_score * weights.semantic + relation_score * weights.relational
    + formative_score * weights.formative
  let weighted := weighted - contradiction_score * 0.15
  let weighted := pyMax 0 (pyMin 1 weighted)
  let final_score := weighted * 100
  { similarity_score := pyRound final_score 2
    breakdown :=
      { semantic := pyRound semantic_score 4
        relational := pyRound relation_score 4
        formative := pyRound formative_score 4
        contradiction := pyRound contradiction_score 4 } }

/-- Embedding of `SimilarityCalculator.calculate_combined_similarity`
(src/models/similarity.py): normalize both texts, short-circuit on exact
match, otherwise compute the three signals and fuse them.  `sem`
abstracts `calculate_semantic_similarity` (the external embedding
capability plus cosine mapping), `nli` the external NLI capability. -/
def calculate_combined_similarity (sem : List Char → List Char → ℚ)
    (nli : List Char → Label × ℚ) (input_text answer : List Char)
    (weights : Weights)
    (nli_templates contradiction_templates : List (List Char)) : CombinedResult :=
  let input_normalized := normalize_text input_text
  let answer_normalized := normalize_text answer
  if input_normalized = answer_normalized then
    { similarity_score := 100
      breakdown := { semantic := 1, relational := 1, formative := 1, contradiction := 0 } }
  else
    let semantic_score := sem input_text answer
    let rc := calculate_relational_similarity nli input_text answer nli_templates
      contradiction_templates
    let formative_score := calculate_formative_similarity input_normalized answer_normalized
    fuse weights semantic_score rc.1 formative_score rc.2

/-- Claim C3's fusion formula, written from the spec's words:
`round(clamp(s*w_s + r*w_r + f*w_f - contradiction*0.15, 0, 1) * 100, 2)`. -/
def fuseSpecFormula (w : Weights) (s r f c : ℚ) : ℚ :=
  pyRound (pyMax 0 (pyMin 1 (s * w.semantic + r * w.relational + f * w.formative - c * 0.15)) * 100) 2

/-- Descending insertion, for modelling Python `sorted(keys, reverse=True)`
over the threshold table. -/
def insertDesc (x : ℕ × List Char) : List (ℕ × List Char) → List (ℕ × List Char)
  | [] => [x]
  | y :: ys => if y.1 < x.1 then x :: y :: ys else y :: insertDesc x ys

/-- Model of `sorted(self.hint_thresholds.keys(), reverse=True)`, keys kept
paired with their hint strings (the keys of a dict are distinct, so
sorting the pairs is the same as sorting the keys and indexing). -/
def sortDesc (l : List (ℕ × List Char)) : List (ℕ × List Char) := l.foldr insertDesc []

/-- Configuration of the `HintGenerator` (src/models/hint.py constructor):
the score-threshold table, the per-relation-type contextual template
table and the detail-suffix table, each a Python dict modelled as an
association list in declaration order. -/
structure HintConfig where
  hint_thresholds : List (ℕ × List Char)
  contextual_templates : List (List Char × List (List Char × List Char))
  detail_suffixes : List (List Char × List Char)

/-- Embedding of `HintGenerator._generate_contextual_hint` (src/models/hint.py). -/
def generate_contextual_hint (cfg : HintConfig) (user_input : List Char)
    (similarity_score : ℚ) (relationship_type : Option (List Char))
    (relationship_confidence : ℚ) : List Char :=
  if relationship_type = none ∨ relationship_type = some [] ∨ relationship_confidence < 0.3 then
    []
  else if similarity_score < 15 then []
  else
    let templates := (cfg.contextual_templates.lookup (relationship_type.getD [])).getD []
    if templates = [] then []
    else
      let hint_level : List Char :=
        if 0.7 ≤ relationship_confidence ∧ 50 ≤ similarity_score then "high".toList
        else if 0.5 ≤ relationship_confidence ∨ 30 ≤ similarity_score then "medium".toList
        else "low".toList
      let hint_template :=
        (templates.lookup hint_level).getD ((templates.lookup "medium".toList).getD [])
      if hint_template = [] then []
      else replaceAll "{input}".toList user_input hint_template

/-- Embedding of `HintGenerator._get_base_hint` (src/models/hint.py): the first
threshold in descending key order that the score reaches; the final
`self.hint_thresholds[0]` raises a KeyError when no key 0 exists,
modelled as `none`. -/
def get_base_hint (cfg : HintConfig) (score : ℚ) : Option (List Char) :=
  match (sortDesc cfg.hint_thresholds).find? (fun e => decide ((e.1 : ℚ) ≤ score)) with
  | some e => some e.2
  | none => cfg.hint_thresholds.lookup 0

/-- Embedding of `HintGenerator._get_detail_hint` (src/models/hint.py).  The
`max([...], key=lambda x: x[1])` over the three named components picks
the first maximal component. -/
def get_detail_hint (cfg : HintConfig) (breakdown : Breakdown) (score : ℚ) : List Char :=
  let semantic := breakdown.semantic
  let relational := breakdown.relational
  let formative := breakdown.formative
  let contradiction := breakdown.contradiction
  if 0.6 < contradiction then "하지만 반대 의미는 아니에요".toList
  else if score < 20 then []
  else if relational ≤ semantic ∧ formative ≤ semantic then
    if 0.6 < semantic then
      if relational < 0.3 then
        (cfg.detail_suffixes.lookup "semantic_high".toList).getD "의미적으로 가까워요".toList
      else []
    else []
  else if formative ≤ relational then
    if 0.6 < relational then
      if semantic < 0.3 then
        (cfg.detail_suffixes.lookup "relational_high".toList).getD "상황이나 맥락은 맞아요".toList
      else []
    else []
  else
    if 0.7 < formative then
      (cfg.detail_suffixes.lookup "formative_high".toList).getD "철자가 매우 비슷해요".toList
    else []

/-- Embedding of `HintGenerator.generate_hint` (src/models/hint.py).  The result is
`none` exactly on the error path of the base-hint lookup (threshold
table with no key 0 and a score below every key). -/
def generate_hint (cfg : HintConfig) (similarity_score : ℚ) (breakdown : Breakdown)
    (user_input answer : List Char) (relationship_type : Option (List Char))
    (relationship_confidence : ℚ) : Option (List Char) :=
  if similarity_score = 100 then some "정답입니다! 🎉".toList
  else
    let contextual_hint := generate_contextual_hint cfg user_input similarity_score
      relationship_type relationship_confidence
    let detail_hint := get_detail_hint cfg breakdown similarity_score
    if contextual_hint ≠ [] then
      if detail_hint ≠ [] ∧ 60 ≤ similarity_score then
        some (contextual_hint ++ ". ".toList ++ detail_hint)
      else some contextual_hint
    else
      match get_base_hint cfg similarity_score with
      | some base_hint =>
          if detail_hint ≠ [] then some (base_hint ++ " ".toList ++ detail_hint)
          else some base_hint
      | none => none

/-- Normalization as claim C4 amends it: lowercase; delete all
whitespace; delete every character that is not a word character in the
Unicode sense (letters of any script — the Hangul clause of the source
regex is subsumed by `\w`, and the trailing `strip()` is a no-op). -/
def normalizeSpecC4Amended (text : List Char) : List Char :=
  ((text.map pyToLower).filter (fun c => !pyIsSpace c)).filter (fun c => pyIsWord c)

/-- Specification row of the Levenshtein dynamic program: with `rxs` the
reversed already-processed part of `s1` and `rys` the reversed
already-consumed part of `s2`, the row lists
`levRec rxs (reverse of each prefix of the remaining s2 extended past rys)`. -/
def rowFrom (rxs : List Char) : List Char → List Char → List ℕ
  | rys, [] => [levRec rxs rys]
  | rys, c2 :: s2 => levRec rxs rys :: rowFrom rxs (c2 :: rys) s2

theorem isHangulSyllable_isWord (c : Char) (h : isHangulSyllable c = true) :
    pyIsWord c = true := by
  simp only [isHangulSyllable, pyIsWord, decide_eq_true_eq] at *
  tauto

theorem dropWhile_eq_self_of_not (p : Char → Bool) (l : List Char)
    (h : ∀ c ∈ l, p c = false) : l.dropWhile p = l := by
  cases l with
  | nil => rfl
  | cons c t => simp [List.dropWhile, h c (by simp)]

theorem pyStrip_eq_self (l : List Char) (h : ∀ c ∈ l, pyIsSpace c = false) :
    pyStrip l = l := by
  unfold pyStrip
  rw [dropWhile_eq_self_of_not _ _ h, dropWhile_eq_self_of_not, List.reverse_reverse]
  intro c hc
  exact h c (by simpa using hc)

/-- C4 (counterexample): the source keeps every Unicode word character,
not only ASCII ones — on the single Latin-1 letter é the code returns
é unchanged, while the claim's steps would delete it. -/
theorem C4_normalize_steps_counterexample :
    normalize_text [Char.ofNat 0xE9] = [Char.ofNat 0xE9]
      ∧ normalizeSpecC4 [Char.ofNat 0xE9] = []
      ∧ normalize_text [Char.ofNat 0xE9] ≠ normalizeSpecC4 [Char.ofNat 0xE9] := by
  refine ⟨by decide, by decide, by decide⟩

/-- C4 (amended): `normalize_text` lowercases, deletes all whitespace,
then deletes every character that is not a word character in the
Unicode sense (the Hangul-syllable alternative of the character class is
subsumed by `\w`, and the final `strip()` is the identity because all
whitespace is already gone); it is a pure total function and the empty
string normalizes to the empty string. -/
theorem C4_normalize_steps_amended (text : List Char) :
    normalize_text text = normalizeSpecC4Amended text ∧ normalize_text [] = [] := by
  constructor
  · show pyStrip _ = _
    have hcongr : ((text.map pyToLower).filter (fun c => !pyIsSpace c)).filter
        (fun c => pyIsWord c || pyIsSpace c || isHangulSyllable c)
        = ((text.map pyToLower).filter (fun c => !pyIsSpace c)).filter (fun c => pyIsWord c) := by
      apply List.filter_congr
      intro c hc
      have hs : pyIsSpace c = false := by
        have := (List.mem_filter.mp hc).2
        simpa using this
      cases hw : pyIsWord c with
      | true => simp [hs, hw]
      | false =>
          cases hh : isHangulSyllable c with
          | true => exact absurd (isHangulSyllable_isWord c hh) (by simp [hw])
          | false => simp [hs, hw, hh]
    rw [hcongr]
    apply pyStrip_eq_self
    intro c hc
    have := (List.mem_filter.mp (List.mem_filter.mp hc).1).2
    simpa using this
  · decide

theorem pyMaxBySnd_const_of_le {α : Type} (rest : List (α × ℚ)) (first : α × ℚ)
    (h : ∀ x ∈ rest, x.2 ≤ first.2) : pyMaxBySnd first rest = first := by
  induction rest with
  | nil => rfl
  | cons x t ih =>
      have hx : ¬ first.2 < x.2 := not_lt.mpr (h x (by simp))
      simp only [pyMaxBySnd, if_neg hx]
      exact ih (fun y hy => h y (by simp [hy]))

theorem pyMaxBySnd_firstMax {α : Type} :
    ∀ (rest : List (α × ℚ)) (first : α × ℚ),
      (∀ q ∈ first :: rest, q.2 ≤ (pyMaxBySnd first rest).2)
        ∧ ∃ l1 l2, first :: rest = l1 ++ (pyMaxBySnd first rest) :: l2
            ∧ ∀ q ∈ l1, q.2 < (pyMaxBySnd first rest).2 := by
  intro rest
  induction rest with
  | nil =>
      intro first
      exact ⟨by simp [pyMaxBySnd], [], [], by simp [pyMaxBySnd], by simp⟩
  | cons x t ih =>
      intro first
      by_cases hlt : first.2 < x.2
      · have hstep : pyMaxBySnd first (x :: t) = pyMaxBySnd x t := by
          simp [pyMaxBySnd, if_pos hlt]
        obtain ⟨hmax, l1, l2, hdec, hl1⟩ := ih x
        have hxm : x.2 ≤ (pyMaxBySnd x t).2 := hmax x (by simp)
        refine ⟨?_, first :: l1, l2, ?_, ?_⟩
        · intro q hq
          rw [hstep]
          rcases List.mem_cons.mp hq with h1 | h2
          · exact h1 ▸ le_of_lt (lt_of_lt_of_le hlt hxm)
          · exact hmax q h2
        · rw [hstep, List.cons_append, ← hdec]
        · intro q hq
          rw [hstep]
          rcases List.mem_cons.mp hq with h1 | h2
          · exact h1 ▸ lt_of_lt_of_le hlt hxm
          · exact hl1 q h2
      · have hstep : pyMaxBySnd first (x :: t) = pyMaxBySnd first t := by
          simp [pyMaxBySnd, if_neg hlt]
        obtain ⟨hmax, l1, l2, hdec, hl1⟩ := ih first
        have hfm : first.2 ≤ (pyMaxBySnd first t).2 := hmax first (by simp)
        refine ⟨?_, ?_⟩
        · intro q hq
          rw [hstep]
          rcases List.mem_cons.mp hq with h1 | h2
          · exact h1 ▸ hfm
          · rcases List.mem_cons.mp h2 with h3 | h4
            · exact h3 ▸ le_trans (not_lt.mp hlt) hfm
            · exact hmax q (by simp [h4])
        · cases l1 with
          | nil =>
              have hpair : first = pyMaxBySnd first t ∧ t = l2 := by simpa using hdec
              refine ⟨[], x :: t, ?_, by simp⟩
              rw [hstep, ← hpair.1]
              simp
          | cons a l1t =>
              have hinj : first = a ∧ t = l1t ++ pyMaxBySnd first t :: l2 := by
                have h0 := hdec
                simp only [List.cons_append, List.cons.injEq] at h0
                exact h0
              have ht : t = l1t ++ pyMaxBySnd first t :: l2 := hinj.2
              have hfirstlt : first.2 < (pyMaxBySnd first t).2 := by
                have h1 := hl1 a (by simp)
                rw [← hinj.1] at h1
                exact h1
              refine ⟨first :: x :: l1t, l2, ?_, ?_⟩
              · rw [hstep]
                conv_lhs => rw [ht]
                simp
              · intro q hq
                rw [hstep]
                rcases List.mem_cons.mp hq with h1 | h2
                · exact h1 ▸ hfirstlt
                · rcases List.mem_cons.mp h2 with h3 | h4
                  · exact h3 ▸ lt_of_le_of_lt (not_lt.mp hlt) hfirstlt
                  · exact hl1 q (by simp [h4])

/-- C5: the relationship classifier selects the entry of maximal
entailment score; on ties the entry first in the taxonomy's declaration
order wins — the chosen result dominates every per-entry score and
occurs in the scored taxonomy strictly after only strictly-smaller
scores (determinism for fixed taxonomy and classifier outputs is
immediate, `analyze_relationship_type` being a function). -/
theorem C5_classifier_first_max_tie_break (nli : List Char → Label × ℚ)
    (input_text answer : List Char) (e0 : List Char × List Char)
    (rest : List (List Char × List Char)) :
    (∀ q ∈ (e0 :: rest).map (entryScore nli input_text answer),
        q.2 ≤ (analyze_relationship_type nli input_text answer (e0 :: rest)).2)
      ∧ ∃ l1 l2, (e0 :: rest).map (entryScore nli input_text answer)
            = l1 ++ (analyze_relationship_type nli input_text answer (e0 :: rest)) :: l2
          ∧ ∀ q ∈ l1, q.2 < (analyze_relationship_type nli input_text answer (e0 :: rest)).2 := by
  have h := pyMaxBySnd_firstMax (rest.map (entryScore nli input_text answer))
    (entryScore nli input_text answer e0)
  simpa [analyze_relationship_type] using h

/-- C1 (counterexample): on a one-entry taxonomy whose single template
is classified neutral (so every per-entry score is 0), the code returns
the taxonomy entry's name with confidence 0.0, not the fallback
("일반"/"general", 0.0). -/
theorem C1_zero_score_fallback_counterexample :
    analyze_relationship_type (fun _ => (Label.neutral, 9/10)) "a".toList "b".toList
        [("사람관계".toList, "t".toList)] = ("사람관계".toList, 0)
      ∧ (entryScore (fun _ => (Label.neutral, 9/10)) "a".toList "b".toList
          ("사람관계".toList, "t".toList)).2 = 0
      ∧ analyze_relationship_type (fun _ => (Label.neutral, 9/10)) "a".toList "b".toList
          [("사람관계".toList, "t".toList)] ≠ ("일반".toList, 0) := by
  refine ⟨by decide, by decide, by decide⟩

/-- C1 (amended): the fallback ("일반", 0.0) is returned exactly when
the taxonomy is empty; on a non-empty taxonomy in which every per-entry
score is 0, the first taxonomy entry's type name is returned with
confidence 0.0 — so a taxonomy type name can be returned with no entry
scoring above zero. -/
theorem C1_zero_score_fallback_amended (nli : List Char → Label × ℚ)
    (input_text answer : List Char) :
    analyze_relationship_type nli input_text answer [] = ("일반".toList, 0)
      ∧ ∀ (e0 : List Char × List Char) (rest : List (List Char × List Char)),
          (∀ p ∈ e0 :: rest, (entryScore nli input_text answer p).2 = 0) →
          analyze_relationship_type nli input_text answer (e0 :: rest) = (e0.1, 0) := by
  constructor
  · rfl
  · intro e0 rest hzero
    have hconst : pyMaxBySnd (entryScore nli input_text answer e0)
        (rest.map (entryScore nli input_text answer)) = entryScore nli input_text answer e0 := by
      apply pyMaxBySnd_const_of_le
      intro x hx
      obtain ⟨p, hp, hpe⟩ := List.mem_map.mp hx
      rw [← hpe, hzero p (by simp [hp]), hzero e0 (by simp)]
    have he : entryScore nli input_text answer e0 = (e0.1, 0) := by
      have h2 := hzero e0 (by simp)
      exact Prod.ext rfl h2
    simp only [analyze_relationship_type, List.map_cons]
    rw [hconst, he]

theorem C1_zero_score_fallback_amended_witness :
    analyze_relationship_type (fun _ => (Label.neutral, 1)) "a".toList "b".toList []
        = ("일반".toList, 0)
      ∧ analyze_relationship_type (fun _ => (Label.neutral, 1)) "a".toList "b".toList
          [("속성관계".toList, "t".toList)] = ("속성관계".toList, 0) := by
  refine ⟨(C1_zero_score_fallback_amended (fun _ => (Label.neutral, 1)) "a".toList "b".toList).1, ?_⟩
  refine (C1_zero_score_fallback_amended (fun _ => (Label.neutral, 1)) "a".toList "b".toList).2
    ("속성관계".toList, "t".toList) [] ?_
  intro p hp
  have hp2 : p = ("속성관계".toList, "t".toList) := by simpa using hp
  rw [hp2]
  decide

/-- C2: when the two inputs normalize identically, the combined
similarity returns exactly score 100.0 with breakdown
(semantic 1, relational 1, formative 1, contradiction 0); the result is
the same for every embedding oracle `sem` and every NLI oracle `nli`,
i.e. neither external capability influences (is invoked on) this
path. -/
theorem C2_exact_match_short_circuit (sem : List Char → List Char → ℚ)
    (nli : List Char → Label × ℚ) (guess answer : List Char) (weights : Weights)
    (nli_templates contradiction_templates : List (List Char))
    (h : normalize_text guess = normalize_text answer) :
    calculate_combined_similarity sem nli guess answer weights nli_templates
        contradiction_templates
      = { similarity_score := 100
          breakdown := { semantic := 1, relational := 1, formative := 1, contradiction := 0 } } := by
  simp [calculate_combined_similarity, h]

theorem C2_exact_match_short_circuit_witness :
    normalize_text "Friend ".toList = normalize_text "friend".toList
      ∧ calculate_combined_similarity (fun _ _ => 0) (fun _ => (Label.entailment, 1))
          "Friend ".toList "friend".toList defaultWeights [] []
        = { similarity_score := 100
            breakdown := { semantic := 1, relational := 1, formative := 1, contradiction := 0 } } :=
  ⟨by decide, C2_exact_match_short_circuit _ _ _ _ _ _ _ (by decide)⟩

theorem pyRoundInt_intCast (n : ℤ) : pyRoundInt (n : ℚ) = n := by
  unfold pyRoundInt
  rw [Int.floor_intCast]
  norm_num

theorem pyRoundInt_bounds (q : ℚ) : ⌊q⌋ ≤ pyRoundInt q ∧ pyRoundInt q ≤ ⌊q⌋ + 1 := by
  unfold pyRoundInt
  split_ifs <;> omega

theorem pyRoundInt_mono {a b : ℚ} (h : a ≤ b) : pyRoundInt a ≤ pyRoundInt b := by
  have hf := Int.floor_mono h
  rcases eq_or_lt_of_le hf with heq | hlt
  · have hr : a - (⌊a⌋ : ℚ) ≤ b - (⌊b⌋ : ℚ) := by
      rw [← heq]
      linarith
    unfold pyRoundInt
    rw [← heq]
    rw [← heq] at hr
    split_ifs <;> first | omega | linarith
  · have hub := (pyRoundInt_bounds a).2
    have hlb := (pyRoundInt_bounds b).1
    omega

theorem pyMin_mono_right (a : ℚ) {x y : ℚ} (h : x ≤ y) : pyMin a x ≤ pyMin a y := by
  unfold pyMin
  split_ifs <;> linarith

theorem pyMax_mono_right (a : ℚ) {x y : ℚ} (h : x ≤ y) : pyMax a x ≤ pyMax a y := by
  unfold pyMax
  split_ifs <;> linarith

theorem pyRound_mono {a b : ℚ} (n : ℕ) (h : a ≤ b) : pyRound a n ≤ pyRound b n := by
  unfold pyRound
  have h1 : pyRoundInt (a * 10 ^ n) ≤ pyRoundInt (b * 10 ^ n) :=
    pyRoundInt_mono (by
      apply mul_le_mul_of_nonneg_right h
      positivity)
  have h2 : ((pyRoundInt (a * 10 ^ n) : ℚ)) ≤ ((pyRoundInt (b * 10 ^ n) : ℚ)) := by
    exact_mod_cast h1
  exact (div_le_div_iff_of_pos_right (by positivity : (0:ℚ) < 10 ^ n)).mpr h2

theorem pyRound_eq_of_intCast (q : ℚ) (n : ℕ) (m : ℤ) (h : q * 10 ^ n = (m : ℚ)) :
    pyRound q n = (m : ℚ) / 10 ^ n := by
  rw [pyRound, h, pyRoundInt_intCast]

/-- C3: the fused composite equals the spec's formula
`round(clamp(s*w_s + r*w_r + f*w_f - c*0.15, 0, 1) * 100, 2)`, the
breakdown components are individually rounded to 4 decimals with the
contradiction figure reported unpenalized, and with the default weights
(0.50, 0.35, 0.15) the inputs (0.8, 0.2, 0.1, 0) give composite 48.5
while contradiction 0.8 gives 36.5. -/
theorem C3_fusion_formula (w : Weights) (s r f c : ℚ)
    (hs : 0 ≤ s ∧ s ≤ 1) (hr : 0 ≤ r ∧ r ≤ 1) (hf : 0 ≤ f ∧ f ≤ 1) (hc : 0 ≤ c ∧ c ≤ 1) :
    (fuse w s r f c).similarity_score = fuseSpecFormula w s r f c
      ∧ (fuse w s r f c).breakdown
          = { semantic := pyRound s 4, relational := pyRound r 4,
              formative := pyRound f 4, contradiction := pyRound c 4 }
      ∧ (fuse defaultWeights 0.8 0.2 0.1 0).similarity_score = 48.5
      ∧ (fuse defaultWeights 0.8 0.2 0.1 0.8).similarity_score = 36.5 := by
  refine ⟨rfl, rfl, ?_, ?_⟩
  · have hval : pyMax 0 (pyMin 1 ((0.8:ℚ) * defaultWeights.semantic
        + 0.2 * defaultWeights.relational + 0.1 * defaultWeights.formative - 0 * 0.15)) * 100
        = 48.5 := by
      norm_num [defaultWeights, pyMin, pyMax]
    show pyRound _ 2 = _
    rw [hval, pyRound_eq_of_intCast _ _ 4850 (by norm_num)]
    norm_num
  · have hval : pyMax 0 (pyMin 1 ((0.8:ℚ) * defaultWeights.semantic
        + 0.2 * defaultWeights.relational + 0.1 * defaultWeights.formative - 0.8 * 0.15)) * 100
        = 36.5 := by
      norm_num [defaultWeights, pyMin, pyMax]
    show pyRound _ 2 = _
    rw [hval, pyRound_eq_of_intCast _ _ 3650 (by norm_num)]
    norm_num

theorem C3_fusion_formula_witness :
    (fuse defaultWeights 0.8 0.2 0.1 0).similarity_score
        = fuseSpecFormula defaultWeights 0.8 0.2 0.1 0
      ∧ (fuse defaultWeights 0.8 0.2 0.1 0).similarity_score = 48.5 :=
  ⟨(C3_fusion_formula defaultWeights 0.8 0.2 0.1 0 (by norm_num) (by norm_num) (by norm_num)
      (by norm_num)).1,
   (C3_fusion_formula defaultWeights 0.8 0.2 0.1 0 (by norm_num) (by norm_num) (by norm_num)
      (by norm_num)).2.2.1⟩

/-- C7: for fixed semantic, relational and formative values and fixed
weights, the composite score is monotonically non-increasing in the
contradiction value. -/
theorem C7_contradiction_monotone (w : Weights) (s r f : ℚ) (c1 c2 : ℚ) (h : c1 ≤ c2) :
    (fuse w s r f c2).similarity_score ≤ (fuse w s r f c1).similarity_score := by
  show pyRound _ 2 ≤ pyRound _ 2
  apply pyRound_mono
  apply mul_le_mul_of_nonneg_right _ (by norm_num : (0:ℚ) ≤ 100)
  apply pyMax_mono_right
  apply pyMin_mono_right
  have h15 : c1 * 0.15 ≤ c2 * 0.15 := mul_le_mul_of_nonneg_right h (by norm_num)
  linarith

theorem C7_contradiction_monotone_witness :
    (fuse defaultWeights 1 1 1 1).similarity_score
      ≤ (fuse defaultWeights 1 1 1 0).similarity_score :=
  C7_contradiction_monotone defaultWeights 1 1 1 0 1 (by norm_num)

/-- C6: when both the contextual hint and the detail hint are non-empty,
the detail hint is appended (as "{contextual}. {detail}") only when the
score is at least 60 and is dropped below 60; and with contradiction
above 0.6 the detail hint is the fixed opposite-meaning string (so e.g.
at contradiction 0.7 and score 55 it is computed but absent from the
final hint). -/
theorem C6_composition_score_gate (cfg : HintConfig) (score : ℚ) (b : Breakdown)
    (user_input answer : List Char) (rt : Option (List Char)) (conf : ℚ)
    (hc : generate_contextual_hint cfg user_input score rt conf ≠ [])
    (hd : get_detail_hint cfg b score ≠ []) :
    (score < 60 → generate_hint cfg score b user_input answer rt conf
        = some (generate_contextual_hint cfg user_input score rt conf))
      ∧ (60 ≤ score → score ≠ 100 → generate_hint cfg score b user_input answer rt conf
          = some (generate_contextual_hint cfg user_input score rt conf ++ ". ".toList
              ++ get_detail_hint cfg b score))
      ∧ (0.6 < b.contradiction →
          get_detail_hint cfg b score = "하지만 반대 의미는 아니에요".toList) := by
  refine ⟨?_, ?_, ?_⟩
  · intro hlt
    have h100 : ¬ score = 100 := by
      intro he
      rw [he] at hlt
      norm_num at hlt
    simp only [generate_hint, if_neg h100]
    rw [if_pos hc, if_neg]
    intro hgate
    linarith [hgate.2]
  · intro h60 h100
    simp only [generate_hint, if_neg h100]
    rw [if_pos hc, if_pos ⟨hd, h60⟩]
  · intro hcon
    simp only [get_detail_hint]
    rw [if_pos hcon]

theorem C6_composition_score_gate_witness :
    generate_contextual_hint
        ⟨[(0, "b".toList)], [("r".toList, [("medium".toList, "T".toList)])], []⟩
        "g".toList 55 (some "r".toList) 0.5 ≠ []
      ∧ get_detail_hint
          ⟨[(0, "b".toList)], [("r".toList, [("medium".toList, "T".toList)])], []⟩
          ⟨0, 0, 0, 0.7⟩ 55 ≠ []
      ∧ generate_hint
          ⟨[(0, "b".toList)], [("r".toList, [("medium".toList, "T".toList)])], []⟩
          55 ⟨0, 0, 0, 0.7⟩ "g".toList "a".toList (some "r".toList) 0.5
        = some (generate_contextual_hint
            ⟨[(0, "b".toList)], [("r".toList, [("medium".toList, "T".toList)])], []⟩
            "g".toList 55 (some "r".toList) 0.5) := by
  have hc : generate_contextual_hint
      ⟨[(0, "b".toList)], [("r".toList, [("medium".toList, "T".toList)])], []⟩
      "g".toList 55 (some "r".toList) 0.5 = "T".toList := by
    norm_num [generate_contextual_hint, List.lookup, replaceAll, replaceGo]
    decide
  have hcne : generate_contextual_hint
      ⟨[(0, "b".toList)], [("r".toList, [("medium".toList, "T".toList)])], []⟩
      "g".toList 55 (some "r".toList) 0.5 ≠ [] := by
    rw [hc]
    decide
  have hdval : get_detail_hint
      ⟨[(0, "b".toList)], [("r".toList, [("medium".toList, "T".toList)])], []⟩
      ⟨0, 0, 0, 0.7⟩ 55 = "하지만 반대 의미는 아니에요".toList := by
    norm_num [get_detail_hint]
  have hdne : get_detail_hint
      ⟨[(0, "b".toList)], [("r".toList, [("medium".toList, "T".toList)])], []⟩
      ⟨0, 0, 0, 0.7⟩ 55 ≠ [] := by
    rw [hdval]
    decide
  exact ⟨hcne, hdne,
    (C6_composition_score_gate _ 55 _ "g".toList "a".toList _ 0.5 hcne hdne).1 (by norm_num)⟩

/-- C9: the contradiction detail hint is a hardcoded literal — when the
breakdown's contradiction exceeds 0.6 the detail hint equals the fixed
string "하지만 반대 의미는 아니에요" regardless of configuration, and
two configurations that differ only in the "contradiction" entry of the
detail-suffix table produce identical `generate_hint` output on every
input (so the configured "contradiction" suffix is never used). -/
theorem C9_contradiction_suffix_ignored (cfg1 cfg2 : HintConfig) (score : ℚ) (b : Breakdown)
    (user_input answer : List Char) (rt : Option (List Char)) (conf : ℚ)
    (hth : cfg1.hint_thresholds = cfg2.hint_thresholds)
    (hct : cfg1.contextual_templates = cfg2.contextual_templates)
    (hds : ∀ k, k ≠ "contradiction".toList →
        cfg1.detail_suffixes.lookup k = cfg2.detail_suffixes.lookup k) :
    (0.6 < b.contradiction →
        get_detail_hint cfg1 b score = "하지만 반대 의미는 아니에요".toList)
      ∧ generate_hint cfg1 score b user_input answer rt conf
          = generate_hint cfg2 score b user_input answer rt conf := by
  have hdetail : get_detail_hint cfg1 b score = get_detail_hint cfg2 b score := by
    unfold get_detail_hint
    rw [hds "semantic_high".toList (by decide), hds "relational_high".toList (by decide),
      hds "formative_high".toList (by decide)]
  have hcontextual : generate_contextual_hint cfg1 user_input score rt conf
      = generate_contextual_hint cfg2 user_input score rt conf := by
    unfold generate_contextual_hint
    rw [hct]
  have hbase : get_base_hint cfg1 score = get_base_hint cfg2 score := by
    unfold get_base_hint
    rw [hth]
  constructor
  · intro hcon
    simp only [get_detail_hint]
    rw [if_pos hcon]
  · unfold generate_hint
    rw [hdetail, hcontextual, hbase]

theorem C9_contradiction_suffix_ignored_witness :
    (0.6 < (Breakdown.mk 0 0 0 0.7).contradiction →
        get_detail_hint ⟨[(0, "b".toList)], [], [("contradiction".toList, "X".toList)]⟩
          ⟨0, 0, 0, 0.7⟩ 55 = "하지만 반대 의미는 아니에요".toList)
      ∧ generate_hint ⟨[(0, "b".toList)], [], [("contradiction".toList, "X".toList)]⟩
          55 ⟨0, 0, 0, 0.7⟩ "g".toList "a".toList none 0
        = generate_hint ⟨[(0, "b".toList)], [], [("contradiction".toList, "Y".toList)]⟩
            55 ⟨0, 0, 0, 0.7⟩ "g".toList "a".toList none 0 := by
  refine C9_contradiction_suffix_ignored _ _ 55 _ "g".toList "a".toList none 0 rfl rfl ?_
  intro k hk
  simp only [List.lookup]
  have hbeq : (k == "contradiction".toList) = false := by
    rw [beq_eq_false_iff_ne]
    exact hk
  rw [hbeq]

theorem mem_insertDesc (x y : ℕ × List Char) (l : List (ℕ × List Char)) :
    y ∈ insertDesc x l ↔ y = x ∨ y ∈ l := by
  induction l with
  | nil => simp [insertDesc]
  | cons a t ih =>
      simp only [insertDesc]
      split_ifs
      · simp
      · simp only [List.mem_cons, ih]
        tauto

theorem mem_sortDesc (y : ℕ × List Char) (l : List (ℕ × List Char)) :
    y ∈ sortDesc l ↔ y ∈ l := by
  induction l with
  | nil => simp [sortDesc]
  | cons a t ih =>
      have hstep : sortDesc (a :: t) = insertDesc a (sortDesc t) := rfl
      rw [hstep, mem_insertDesc]
      simp [ih]

theorem get_base_hint_total (cfg : HintConfig) (score : ℚ)
    (h0 : ∃ s0, (0, s0) ∈ cfg.hint_thresholds)
    (hne : ∀ p ∈ cfg.hint_thresholds, p.2 ≠ []) (hs : 0 ≤ score) :
    ∃ v, get_base_hint cfg score = some v ∧ v ≠ [] := by
  obtain ⟨s0, hmem⟩ := h0
  have hsome : ((sortDesc cfg.hint_thresholds).find?
      (fun e => decide ((e.1 : ℚ) ≤ score))).isSome := by
    rw [List.find?_isSome]
    refine ⟨(0, s0), ?_, ?_⟩
    · exact (mem_sortDesc _ _).mpr hmem
    · simpa using hs
  obtain ⟨e, hfind⟩ := Option.isSome_iff_exists.mp hsome
  have hemem : e ∈ cfg.hint_thresholds :=
    (mem_sortDesc _ _).mp (List.mem_of_find?_eq_some hfind)
  refine ⟨e.2, ?_, hne e hemem⟩
  unfold get_base_hint
  rw [hfind]

/-- C10: if the threshold table has an entry keyed 0 and every
configured base-hint string is non-empty, then for every score at least
0 `generate_hint` returns a hint (no KeyError) and that hint is a
non-empty string, whatever the breakdown and relation inputs are. -/
theorem C10_hint_nonempty (cfg : HintConfig) (score : ℚ) (b : Breakdown)
    (user_input answer : List Char) (rt : Option (List Char)) (conf : ℚ)
    (h0 : ∃ s0, (0, s0) ∈ cfg.hint_thresholds)
    (hne : ∀ p ∈ cfg.hint_thresholds, p.2 ≠ []) (hs : 0 ≤ score) :
    ∃ out, generate_hint cfg score b user_input answer rt conf = some out ∧ out ≠ [] := by
  by_cases h100 : score = 100
  · refine ⟨"정답입니다! 🎉".toList, ?_, by decide⟩
    simp only [generate_hint, if_pos h100]
  · simp only [generate_hint, if_neg h100]
    by_cases hcne : generate_contextual_hint cfg user_input score rt conf ≠ []
    · rw [if_pos hcne]
      by_cases hgate : get_detail_hint cfg b score ≠ [] ∧ 60 ≤ score
      · rw [if_pos hgate]
        refine ⟨_, rfl, ?_⟩
        intro hnil
        simp only [List.append_eq_nil] at hnil
        exact hcne hnil.1.1
      · rw [if_neg hgate]
        exact ⟨_, rfl, hcne⟩
    · rw [if_neg hcne]
      obtain ⟨v, hv, hvne⟩ := get_base_hint_total cfg score h0 hne hs
      rw [hv]
      by_cases hd : get_detail_hint cfg b score = []
      · exact ⟨v, by simp [hd], hvne⟩
      · refine ⟨v ++ " ".toList ++ get_detail_hint cfg b score, by simp [hd], ?_⟩
        intro hnil
        simp only [List.append_eq_nil] at hnil
        exact hvne hnil.1.1

theorem C10_hint_nonempty_witness :
    ∃ out, generate_hint ⟨[(0, "b".toList)], [], []⟩ 0 ⟨0, 0, 0, 0⟩
        "g".toList "a".toList none 0 = some out ∧ out ≠ [] := by
  refine C10_hint_nonempty _ 0 _ "g".toList "a".toList none 0 ⟨"b".toList, by decide⟩ ?_ le_rfl
  intro p hp
  have hp2 : p = (0, "b".toList) := by simpa using hp
  rw [hp2]
  decide

theorem levRec_nil_right (xs : List Char) : levRec xs [] = xs.length := by
  cases xs <;> simp [levRec]

theorem levRec_comm : ∀ (xs ys : List Char), levRec xs ys = levRec ys xs := by
  intro xs
  induction xs with
  | nil =>
      intro ys
      rw [levRec_nil_right]
      simp [levRec]
  | cons x xs ihx =>
      intro ys
      induction ys with
      | nil => rw [levRec_nil_right]; simp [levRec]
      | cons y ys ihy =>
          simp only [levRec]
          rw [ihx (y :: ys), ihx ys, ihy]
          have hcost : (if x = y then 0 else 1) = (if y = x then 0 else 1) := by
            simp [eq_comm]
          rw [hcost]
          omega

theorem levRowAux_cell (c1 c2 : Char) (rxs rys : List Char) :
    min (min (levRec rxs (c2 :: rys) + 1) (levRec (c1 :: rxs) rys + 1))
        (levRec rxs rys + if c1 = c2 then 0 else 1)
      = levRec (c1 :: rxs) (c2 :: rys) := by
  simp only [levRec]
  omega

theorem rowFrom_ne_nil (rxs rys s2 : List Char) : rowFrom rxs rys s2 ≠ [] := by
  cases s2 <;> simp [rowFrom]

theorem levRowAux_rowFrom (c1 : Char) (rxs : List Char) :
    ∀ (s2 rys : List Char),
      levRec (c1 :: rxs) rys
          :: levRowAux c1 s2 (rowFrom rxs rys s2) (levRec (c1 :: rxs) rys)
        = rowFrom (c1 :: rxs) rys s2 := by
  intro s2
  induction s2 with
  | nil =>
      intro rys
      simp [rowFrom, levRowAux]
  | cons c2 s2t ih =>
      intro rys
      cases s2t with
      | nil =>
          simp only [rowFrom, levRowAux]
          rw [levRowAux_cell]
      | cons c3 s2tt =>
          simp only [rowFrom, levRowAux]
          rw [levRowAux_cell]
          have hih := ih (c2 :: rys)
          simp only [rowFrom] at hih
          have htail := congrArg List.tail hih
          simp only [List.tail_cons] at htail
          rw [htail]

theorem levLoop_rowFrom (s2 : List Char) :
    ∀ (s1 rxs : List Char) (i : ℕ), i = rxs.length →
      levLoop s2 s1 (rowFrom rxs [] s2) i = rowFrom (s1.reverse ++ rxs) [] s2 := by
  intro s1
  induction s1 with
  | nil =>
      intro rxs i hi
      simp [levLoop]
  | cons c1 s1t ih =>
      intro rxs i hi
      simp only [levLoop]
      have hcell : i + 1 = levRec (c1 :: rxs) [] := by
        rw [levRec_nil_right]
        simp [hi]
      rw [hcell, levRowAux_rowFrom]
      have := ih (c1 :: rxs) (levRec (c1 :: rxs) []) (by rw [levRec_nil_right])
      rw [this]
      simp

theorem getLastD_of_ne_nil {l : List ℕ} (h : l ≠ []) (a b : ℕ) :
    l.getLastD a = l.getLastD b := by
  cases l with
  | nil => exact absurd rfl h
  | cons x t => rfl

theorem rowFrom_getLastD (rxs : List Char) :
    ∀ (s2 rys : List Char),
      (rowFrom rxs rys s2).getLastD 0 = levRec rxs (s2.reverse ++ rys) := by
  intro s2
  induction s2 with
  | nil =>
      intro rys
      simp [rowFrom]
  | cons c2 s2t ih =>
      intro rys
      simp only [rowFrom, List.getLastD_cons]
      rw [getLastD_of_ne_nil (rowFrom_ne_nil rxs (c2 :: rys) s2t) _ 0, ih (c2 :: rys)]
      simp

theorem rowFrom_nil_eq_range (s2 : List Char) :
    ∀ rys : List Char, rowFrom [] rys s2 = List.range' rys.length (s2.length + 1) := by
  induction s2 with
  | nil =>
      intro rys
      simp [rowFrom, levRec]
  | cons c2 s2t ih =>
      intro rys
      simp only [rowFrom]
      rw [ih (c2 :: rys)]
      rw [show levRec [] rys = rys.length from by simp [levRec]]
      rw [show (c2 :: s2t).length + 1 = s2t.length + 1 + 1 from by simp]
      simp only [List.length_cons]
      rw [List.range'_succ, List.range'_succ, List.range'_succ]

theorem levDP_eq_levRec (s1 s2 : List Char) : levDP s1 s2 = levRec s1.reverse s2.reverse := by
  unfold levDP
  by_cases h : s2.length = 0
  · rw [if_pos h]
    have h2 : s2 = [] := List.length_eq_zero.mp h
    subst h2
    simp only [List.reverse_nil]
    rw [levRec_nil_right]
    simp
  · rw [if_neg h]
    have hinit : List.range (s2.length + 1) = rowFrom [] [] s2 := by
      rw [rowFrom_nil_eq_range s2 []]
      rw [List.range_eq_range']
      rfl
    rw [hinit, levLoop_rowFrom s2 s1 [] 0 rfl, rowFrom_getLastD]
    simp

theorem levenshtein_distance_eq_levRec (s1 s2 : List Char) :
    levenshtein_distance s1 s2 = levRec s1.reverse s2.reverse := by
  unfold levenshtein_distance
  split_ifs with h
  · rw [levDP_eq_levRec, levRec_comm]
  · rw [levDP_eq_levRec]

theorem levenshtein_distance_comm (s1 s2 : List Char) :
    levenshtein_distance s1 s2 = levenshtein_distance s2 s1 := by
  rw [levenshtein_distance_eq_levRec, levenshtein_distance_eq_levRec, levRec_comm]

theorem pyMaxN_comm (x y : ℕ) : pyMaxN x y = pyMaxN y x := by
  unfold pyMaxN
  split_ifs <;> omega

/-- C8: the formative similarity is symmetric,
`formative(a, b) = formative(b, a)` for all strings `a` and `b` — the
length swap plus the symmetry of the Levenshtein dynamic program. -/
theorem C8_formative_symmetric (a b : List Char) :
    calculate_formative_similarity a b = calculate_formative_similarity b a := by
  simp only [calculate_formative_similarity]
  rw [levenshtein_distance_comm (h2j a) (h2j b), pyMaxN_comm (h2j a).length (h2j b).length]

/-- Sanity check, the spec's Scenario A: `formative("abc", "abd")` has
edit distance 1 over maximum length 3, similarity 2/3. -/
theorem formative_scenario_A :
    calculate_formative_similarity "abc".toList "abd".toList = 2/3 := by
  have h1 : levenshtein_distance (h2j ['a', 'b', 'c']) (h2j ['a', 'b', 'd']) = 1 := by decide
  have h2 : pyMaxN (h2j ['a', 'b', 'c']).length (h2j ['a', 'b', 'd']).length = 3 := by decide
  simp [calculate_formative_similarity, pyMax, h1, h2]
  norm_num

/-- Sanity check: both sequences empty gives similarity 1. -/
theorem formative_empty_empty : calculate_formative_similarity [] [] = 1 := by
  simp [calculate_formative_similarity, h2j, levenshtein_distance, levDP, pyMaxN]

/-- Sanity check of the dynamic program on a classic instance. -/
theorem levenshtein_kitten_sitting :
    levenshtein_distance "kitten".toList "sitting".toList = 3 := by decide

/-- Sanity check: the spec's case/whitespace insensitivity example. -/
theorem normalize_case_whitespace :
    normalize_text "Friend ".toList = normalize_text "friend".toList := by decide
